import Mathlib

/-!
Shallow embedding of `src/main.py` (FastAPI Patient Management System).

Modelling conventions:
* Python `float` is modelled by `ℚ` (the spec states all arithmetic exactly);
  Python `round(x, 2)` is modelled by rounding to the nearest multiple of
  `1/100` (`round2`).
* A JSON object is an ordered association list `List (String × Val)`;
  the persisted store (`patients.json`) is an ordered association list from
  patient id to such an object, mirroring Python `dict` insertion order.
* Pydantic v2 semantics that matter here and are embedded faithfully:
  `model_dump` emits declared fields in declaration order followed by
  `@computed_field` properties (`bmi`, `verdict`); `exclude={"id"}` removes
  only the `id` key; constructing `Patient(**kwargs)` ignores unknown keys
  (default `extra='ignore'`) and rejects values violating `gt=0` constraints
  on `age`, `height`, `weight` (the only declared constraints).
* An HTTP endpoint is a function from the loaded store (plus its inputs) to
  `Except Err result`; mutating endpoints also return the store that is
  persisted afterwards (on an error path `save_data` is never reached, so the
  persisted store is the input store).
-/

namespace PMS

/-- A JSON-representable scalar value, as stored in `patients.json` and in
`model_dump` outputs. -/
inductive Val where
  | str : String → Val
  | int : Int → Val
  | num : ℚ → Val
deriving DecidableEq, Repr

/-- A JSON object: ordered key/value pairs (Python `dict` of scalars). -/
abbrev Obj := List (String × Val)

/-- The persisted store: patient id ↦ stored object, in insertion order. -/
abbrev Store := List (String × Obj)

/-- Python `d[k]` lookup (first, hence unique, occurrence of the key). -/
def dictGet {α : Type} : List (String × α) → String → Option α
  | [], _ => none
  | kv :: rest, k => if kv.1 = k then some kv.2 else dictGet rest k

/-- Python `k in d`. -/
def dictContains {α : Type} (d : List (String × α)) (k : String) : Bool :=
  (dictGet d k).isSome

/-- Python `d[k] = v`: overwrite in place if the key exists (keeping its
position), otherwise append at the end. -/
def dictSet {α : Type} (d : List (String × α)) (k : String) (v : α) :
    List (String × α) :=
  if dictContains d k then d.map (fun kv => if kv.1 = k then (k, v) else kv)
  else d ++ [(k, v)]

/-- Python `del d[k]`. -/
def dictDel {α : Type} (d : List (String × α)) (k : String) :
    List (String × α) :=
  d.filter (fun kv => kv.1 != k)

/-- The `Patient` pydantic model's declared fields (`src/main.py` lines
16-24). -/
structure Patient where
  id : String
  name : String
  city : String
  age : Int
  gender : String
  height : ℚ
  weight : ℚ
deriving DecidableEq, Repr

/-- The declared pydantic field constraints: `gt=0` on `age`, `height`,
`weight`.  `name`, `city`, `gender`, `id` carry no constraint beyond being
strings. -/
def Patient.validate (p : Patient) : Bool :=
  decide (0 < p.age) && decide (0 < p.height) && decide (0 < p.weight)

/-- Python `round(q, 2)`: round to the nearest multiple of `1/100`
(computably, via `Rat.floor`; ties go up in this model). -/
def round2 (q : ℚ) : ℚ := (((q * 100 + 1 / 2 : ℚ).floor : ℤ) : ℚ) / 100

/-- `Patient.bmi` (`src/main.py` lines 26-29):
`round(self.weight / ((self.height / 100) ** 2), 2)`. -/
def Patient.bmi (p : Patient) : ℚ :=
  round2 (p.weight / ((p.height / 100) ^ 2))

/-- `Patient.verdict` (`src/main.py` lines 31-41). -/
def Patient.verdict (p : Patient) : String :=
  if 30 ≤ p.bmi then "Obese"
  else if 25 ≤ p.bmi then "Overweight"
  else if 18.5 ≤ p.bmi then "Normal"
  else "Underweight"

/-- Pydantic v2 `model_dump()`: the declared fields in declaration order,
followed by the `@computed_field` properties `bmi` and `verdict`. -/
def Patient.model_dump (p : Patient) : Obj :=
  [("id", .str p.id), ("name", .str p.name), ("city", .str p.city),
   ("age", .int p.age), ("gender", .str p.gender),
   ("height", .num p.height), ("weight", .num p.weight),
   ("bmi", .num p.bmi), ("verdict", .str p.verdict)]

/-- `model_dump(exclude={"id"})`: drop exactly the `id` key. -/
def Patient.dumpNoId (p : Patient) : Obj :=
  p.model_dump.filter (fun kv => kv.1 != "id")

/-- Extract a required string field from constructor kwargs. -/
def getStr (kw : Obj) (k : String) : Option String :=
  match dictGet kw k with
  | some (Val.str s) => some s
  | _ => none

/-- Extract a required integer field from constructor kwargs. -/
def getInt (kw : Obj) (k : String) : Option Int :=
  match dictGet kw k with
  | some (Val.int n) => some n
  | _ => none

/-- Extract a required float field from constructor kwargs (pydantic coerces
an integer value to float). -/
def getNum (kw : Obj) (k : String) : Option ℚ :=
  match dictGet kw k with
  | some (Val.num q) => some q
  | some (Val.int n) => some (n : ℚ)
  | _ => none

/-- `Patient(id=pid, **kw)`: pull each declared field out of the kwargs
(unknown keys such as a persisted `bmi`/`verdict` are ignored, pydantic's
default `extra='ignore'`), then enforce the declared constraints.  `none`
is a pydantic `ValidationError`. -/
def Patient.fromKwargs (pid : String) (kw : Obj) : Option Patient := do
  let name ← getStr kw "name"
  let city ← getStr kw "city"
  let age ← getInt kw "age"
  let gender ← getStr kw "gender"
  let height ← getNum kw "height"
  let weight ← getNum kw "weight"
  let p : Patient := ⟨pid, name, city, age, gender, height, weight⟩
  if p.validate then some p else none

/-- The distinct failures the endpoints raise (`HTTPException`s and a
pydantic `ValidationError` from reconstructing a stored record). -/
inductive Err where
  | notFound
  | conflict
  | invalidArg
  | validation
deriving DecidableEq, Repr

instance {ε α : Type} [DecidableEq ε] [DecidableEq α] :
    DecidableEq (Except ε α) := fun a b =>
  match a, b with
  | .error e, .error f =>
    if h : e = f then .isTrue (by rw [h]) else .isFalse (by simp [h])
  | .error _, .ok _ => .isFalse (fun h => Except.noConfusion h)
  | .ok _, .error _ => .isFalse (fun h => Except.noConfusion h)
  | .ok x, .ok y =>
    if h : x = y then .isTrue (by rw [h]) else .isFalse (by simp [h])

/-- `load_data` (`src/main.py` lines 47-51): `none` models a missing
`patients.json`, in which case an empty mapping is returned. -/
def load_data : Option Store → Store
  | none => []
  | some st => st

/-- `view_patients` (`src/main.py` lines 75-77): return the mapping as-is. -/
def view_patients (st : Store) : Store := st

/-- `get_patient` (`src/main.py` lines 83-92). -/
def get_patient (st : Store) (patient_id : String) : Except Err Obj :=
  match dictGet st patient_id with
  | none => .error .notFound
  | some info =>
    match Patient.fromKwargs patient_id info with
    | some p => .ok p.model_dump
    | none => .error .validation

/-- `create_patient` (`src/main.py` lines 98-116): the body has already been
validated into a `Patient` by FastAPI.  Returns the confirmation (or error)
and the store persisted afterwards. -/
def create_patient (st : Store) (patient : Patient) :
    Except Err String × Store :=
  if dictContains st patient.id then (.error .conflict, st)
  else (.ok patient.id, dictSet st patient.id patient.dumpNoId)

/-- `update_patient` (`src/main.py` lines 155-166): full replace of the
non-id fields under the path's `patient_id`. -/
def update_patient (st : Store) (patient_id : String)
    (updated_patient : Patient) : Except Err Unit × Store :=
  if dictContains st patient_id then
    (.ok (), dictSet st patient_id updated_patient.dumpNoId)
  else (.error .notFound, st)

/-- `delete_patient` (`src/main.py` lines 172-183). -/
def delete_patient (st : Store) (patient_id : String) :
    Except Err Unit × Store :=
  if dictContains st patient_id then (.ok (), dictDel st patient_id)
  else (.error .notFound, st)

/-- `getattr(x, sort_by)` for the three validated sort fields. -/
def sortKeyVal (sort_by : String) (p : Patient) : ℚ :=
  if sort_by = "height" then p.height
  else if sort_by = "weight" then p.weight
  else p.bmi

/-- Reconstruct a `Patient` from every store entry, in store order
(the list comprehension in `sort_patients`); `none` if any entry fails
validation. -/
def storePatients (st : Store) : Option (List Patient) :=
  st.mapM (fun kv => Patient.fromKwargs kv.1 kv.2)

/-- The comparison handed to the stable sort: Python
`sorted(key=..., reverse=(order == "desc"))` sorts stably by the key,
reversing the comparison (not the output) when descending. -/
def sortLe (sort_by order : String) (a b : Patient) : Bool :=
  if order = "desc" then decide (sortKeyVal sort_by b ≤ sortKeyVal sort_by a)
  else decide (sortKeyVal sort_by a ≤ sortKeyVal sort_by b)

/-- `sort_patients` (`src/main.py` lines 122-149). -/
def sort_patients (st : Store) (sort_by order : String) :
    Except Err (List Obj) :=
  if ¬(sort_by = "height" ∨ sort_by = "weight" ∨ sort_by = "bmi") then
    .error .invalidArg
  else if ¬(order = "asc" ∨ order = "desc") then .error .invalidArg
  else
    match storePatients st with
    | none => .error .validation
    | some patients =>
      .ok ((patients.mergeSort (sortLe sort_by order)).map Patient.model_dump)

/-! ### Dictionary lemmas -/

theorem dictGet_map_set_self {α : Type} (d : List (String × α)) (k : String)
    (v : α) :
    dictGet (d.map (fun kv => if kv.1 = k then (k, v) else kv)) k =
      (dictGet d k).map (fun _ => v) := by
  induction d with
  | nil => rfl
  | cons kv rest ih =>
    by_cases h : kv.1 = k
    · simp [dictGet, h]
    · simp [dictGet, h, ih]

theorem dictGet_map_set_ne {α : Type} (d : List (String × α)) {k k' : String}
    (h : k' ≠ k) (v : α) :
    dictGet (d.map (fun kv => if kv.1 = k then (k, v) else kv)) k' =
      dictGet d k' := by
  induction d with
  | nil => rfl
  | cons kv rest ih =>
    by_cases hk : kv.1 = k
    · have : kv.1 ≠ k' := by rw [hk]; exact fun e => h e.symm
      simp [dictGet, hk, this, Ne.symm h, ih]
    · by_cases hk' : kv.1 = k'
      · simp [dictGet, hk, hk', h]
      · simp [dictGet, hk, hk', ih]

theorem dictGet_append_single_self {α : Type} (d : List (String × α))
    (k : String) (v : α) (h : dictGet d k = none) :
    dictGet (d ++ [(k, v)]) k = some v := by
  induction d with
  | nil => simp [dictGet]
  | cons kv rest ih =>
    by_cases hk : kv.1 = k
    · simp [dictGet, hk] at h
    · simp [dictGet, hk] at h ⊢
      exact ih h

theorem dictGet_append_single_ne {α : Type} (d : List (String × α))
    {k k' : String} (h : k' ≠ k) (v : α) :
    dictGet (d ++ [(k, v)]) k' = dictGet d k' := by
  induction d with
  | nil => simp [dictGet, Ne.symm h]
  | cons kv rest ih =>
    by_cases hk : kv.1 = k'
    · simp [dictGet, hk]
    · simp [dictGet, hk, ih]

theorem dictGet_dictSet_self {α : Type} (d : List (String × α)) (k : String)
    (v : α) : dictGet (dictSet d k v) k = some v := by
  unfold dictSet dictContains
  by_cases h : (dictGet d k).isSome
  · rw [if_pos h, dictGet_map_set_self]
    obtain ⟨w, hw⟩ := Option.isSome_iff_exists.mp h
    rw [hw]; rfl
  · rw [if_neg h]
    exact dictGet_append_single_self d k v (Option.not_isSome_iff_eq_none.mp h)

theorem dictGet_dictSet_ne {α : Type} (d : List (String × α)) {k k' : String}
    (h : k' ≠ k) (v : α) : dictGet (dictSet d k v) k' = dictGet d k' := by
  unfold dictSet
  by_cases hc : dictContains d k
  · rw [if_pos hc, dictGet_map_set_ne d h]
  · rw [if_neg hc, dictGet_append_single_ne d h]

/-! ### Claim C5: duplicate-id create -/

/-- Claim C5: for every store and every create payload whose id is already a
key of the store, create fails with the conflict error and the persisted
store is exactly the input store. -/
theorem create_conflict_unchanged (st : Store) (p : Patient)
    (h : dictContains st p.id = true) :
    create_patient st p = (.error .conflict, st) := by
  simp [create_patient, h]

def stC5 : Store := [("P001", [("name", .str "John")])]

def pC5 : Patient := ⟨"P001", "Jane", "Pune", 30, "Female", 160, 55⟩

theorem create_conflict_unchanged_witness :
    dictContains stC5 pC5.id = true ∧
      create_patient stC5 pC5 = (.error .conflict, stC5) :=
  ⟨by decide, create_conflict_unchanged stC5 pC5 (by decide)⟩

/-! ### Claim C6: update of a nonexistent id -/

/-- Claim C6: for every store and id that is not a key of the store, update
fails with the not-found error and the persisted store is exactly the input
store. -/
theorem update_notfound_unchanged (st : Store) (patient_id : String)
    (p : Patient) (h : dictContains st patient_id = false) :
    update_patient st patient_id p = (.error .notFound, st) := by
  simp [update_patient, h]

def stC6 : Store := [("P001", [("name", .str "John")])]

def pC6 : Patient := ⟨"P002", "Jane", "Pune", 30, "Female", 160, 55⟩

theorem update_notfound_unchanged_witness :
    dictContains stC6 "P002" = false ∧
      update_patient stC6 "P002" pC6 = (.error .notFound, stC6) :=
  ⟨by decide, update_notfound_unchanged stC6 "P002" pC6 (by decide)⟩

/-! ### Claim C9: missing persisted document -/

/-- Claim C9: when the persisted document does not exist, `load_data` returns
the empty mapping rather than failing, and every operation behaves as on an
empty store: list returns the empty mapping, get/update/delete report
not-found, create inserts into the empty store, and sort acts on the empty
store (returning the empty sequence for valid parameters). -/
theorem load_missing_empty :
    load_data none = ([] : Store) ∧
    view_patients (load_data none) = ([] : Store) ∧
    (∀ pid, get_patient (load_data none) pid = .error .notFound) ∧
    (∀ p : Patient, create_patient (load_data none) p =
      (.ok p.id, [(p.id, p.dumpNoId)])) ∧
    (∀ pid p, update_patient (load_data none) pid p = (.error .notFound, [])) ∧
    (∀ pid, delete_patient (load_data none) pid = (.error .notFound, [])) ∧
    (∀ sb ord, sort_patients (load_data none) sb ord = sort_patients [] sb ord) ∧
    sort_patients (load_data none) "bmi" "asc" = .ok [] := by
  refine ⟨rfl, rfl, fun pid => rfl, fun p => ?_, fun pid p => rfl, fun pid => rfl,
    fun sb ord => rfl, ?_⟩
  · simp [create_patient, dictSet, dictContains, dictGet, load_data]
  · simp [sort_patients, load_data, storePatients, List.mapM, List.mapM.loop,
      List.mergeSort]

/-! ### Claim C10: update stores under the path id only -/

/-- Claim C10: a successful update whose payload id differs from the path's
patient id stores the replacement fields under the path id; every other key
(in particular the payload's id) keeps its previous value. -/
theorem update_frame_effect (st : Store) (patient_id : String) (p : Patient)
    (hmem : dictContains st patient_id = true) (hne : p.id ≠ patient_id) :
    (update_patient st patient_id p).1 = .ok () ∧
    dictGet (update_patient st patient_id p).2 patient_id = some p.dumpNoId ∧
    (∀ k, k ≠ patient_id →
      dictGet (update_patient st patient_id p).2 k = dictGet st k) ∧
    dictGet (update_patient st patient_id p).2 p.id = dictGet st p.id := by
  refine ⟨by simp [update_patient, hmem], ?_, fun k hk => ?_, ?_⟩
  · simp only [update_patient, hmem, if_true]
    exact dictGet_dictSet_self st patient_id p.dumpNoId
  · simp only [update_patient, hmem, if_true]
    exact dictGet_dictSet_ne st hk p.dumpNoId
  · simp only [update_patient, hmem, if_true]
    exact dictGet_dictSet_ne st hne p.dumpNoId

def stC10 : Store := [("P1", [("name", .str "a")]), ("P2", [("name", .str "b")])]

def pC10 : Patient := ⟨"Q9", "New", "Delhi", 40, "Male", 180, 80⟩

theorem update_frame_effect_witness :
    (update_patient stC10 "P1" pC10).1 = .ok () ∧
    dictGet (update_patient stC10 "P1" pC10).2 "P1" = some pC10.dumpNoId ∧
    dictGet (update_patient stC10 "P1" pC10).2 "P2" = dictGet stC10 "P2" ∧
    dictGet (update_patient stC10 "P1" pC10).2 "Q9" = dictGet stC10 "Q9" :=
  ⟨(update_frame_effect stC10 "P1" pC10 (by decide) (by decide)).1,
   (update_frame_effect stC10 "P1" pC10 (by decide) (by decide)).2.1,
   (update_frame_effect stC10 "P1" pC10 (by decide) (by decide)).2.2.1 "P2"
     (by decide),
   (update_frame_effect stC10 "P1" pC10 (by decide) (by decide)).2.2.2⟩

/-! ### Rounding lemmas -/

theorem round2_eq_round (q : ℚ) :
    round2 q = ((round (q * 100) : ℤ) : ℚ) / 100 := by
  rw [round2, round_eq, Rat.floor_def', ← Rat.floor_def]

theorem abs_round2_sub_le (q : ℚ) : |round2 q - q| ≤ 1 / 200 := by
  rw [round2_eq_round]
  have h := abs_sub_round (q * 100)
  rw [abs_sub_comm] at h
  have e : ((round (q * 100) : ℤ) : ℚ) / 100 - q =
      (((round (q * 100) : ℤ) : ℚ) - q * 100) / 100 := by ring
  rw [e, abs_div]
  have h100 : |(100 : ℚ)| = 100 := by norm_num
  rw [h100]
  calc |((round (q * 100) : ℤ) : ℚ) - q * 100| / 100 ≤ (1 / 2) / 100 := by gcongr
    _ = 1 / 200 := by norm_num

/-! ### Claim C2: the bmi formula -/

/-- Claim C2: for every record with positive height and weight, the derived
`bmi` is `weight / (height/100)^2` rounded to two decimal places: it equals
the code's rounding of that quotient, differs from the exact quotient by at
most `1/200`, and is an integer multiple of `1/100`. -/
theorem bmi_formula (p : Patient) (hh : 0 < p.height) (hw : 0 < p.weight) :
    p.bmi = round2 (p.weight / ((p.height / 100) ^ 2)) ∧
    |p.bmi - p.weight / ((p.height / 100) ^ 2)| ≤ 1 / 200 ∧
    ∃ n : ℤ, p.bmi = (n : ℚ) / 100 := by
  refine ⟨rfl, abs_round2_sub_le _, ?_⟩
  rw [Patient.bmi, round2_eq_round]
  exact ⟨round (p.weight / ((p.height / 100) ^ 2) * 100), rfl⟩

def pC2 : Patient := ⟨"P001", "John", "Pune", 25, "Male", 175, 70⟩

unseal Rat.mul Rat.inv Rat.add Rat.sub Rat.ofScientific in
theorem bmi_formula_witness :
    (0 < pC2.height ∧ 0 < pC2.weight) ∧
    (pC2.bmi = round2 (pC2.weight / ((pC2.height / 100) ^ 2)) ∧
     |pC2.bmi - pC2.weight / ((pC2.height / 100) ^ 2)| ≤ 1 / 200 ∧
     ∃ n : ℤ, pC2.bmi = (n : ℚ) / 100) :=
  ⟨⟨by decide, by decide⟩, bmi_formula pC2 (by decide) (by decide)⟩

/-! ### Claim C3: the verdict threshold table -/

/-- Claim C3: the derived verdict matches the threshold table exactly:
`bmi ≥ 30 → "Obese"`, `25 ≤ bmi < 30 → "Overweight"`,
`18.5 ≤ bmi < 25 → "Normal"`, `bmi < 18.5 → "Underweight"` (so at the
boundaries `18.5 → "Normal"`, `25 → "Overweight"`, `30 → "Obese"`). -/
theorem verdict_table (p : Patient) :
    (30 ≤ p.bmi → p.verdict = "Obese") ∧
    (25 ≤ p.bmi ∧ p.bmi < 30 → p.verdict = "Overweight") ∧
    ((18.5 : ℚ) ≤ p.bmi ∧ p.bmi < 25 → p.verdict = "Normal") ∧
    (p.bmi < (18.5 : ℚ) → p.verdict = "Underweight") := by
  have h185 : (18.5 : ℚ) = 37 / 2 := by norm_num
  refine ⟨fun h => ?_, fun h => ?_, fun h => ?_, fun h => ?_⟩ <;>
    rw [Patient.verdict] <;> rw [h185] at * <;>
    split_ifs with h1 h2 h3 <;> first | rfl | (exfalso; try obtain ⟨ha, hb⟩ := h) <;>
    linarith

/-- Patients whose bmi lands exactly on each boundary (height 100 cm makes
the bmi equal the weight). -/
def pC3a : Patient := ⟨"A", "a", "c", 30, "M", 100, 18.5⟩

def pC3b : Patient := ⟨"B", "b", "c", 30, "M", 100, 25⟩

def pC3c : Patient := ⟨"C", "c", "c", 30, "M", 100, 30⟩

unseal Rat.mul Rat.inv Rat.add Rat.sub Rat.ofScientific in
theorem verdict_table_witness :
    pC3a.verdict = "Normal" ∧ pC3b.verdict = "Overweight" ∧
      pC3c.verdict = "Obese" :=
  ⟨(verdict_table pC3a).2.2.1 ⟨by decide, by decide⟩,
   (verdict_table pC3b).2.1 ⟨by decide, by decide⟩,
   (verdict_table pC3c).1 (by decide)⟩

/-! ### Dump and reconstruction lemmas -/

theorem dumpNoId_eq (p : Patient) :
    p.dumpNoId =
      [("name", .str p.name), ("city", .str p.city), ("age", .int p.age),
       ("gender", .str p.gender), ("height", .num p.height),
       ("weight", .num p.weight), ("bmi", .num p.bmi),
       ("verdict", .str p.verdict)] := by
  simp [Patient.dumpNoId, Patient.model_dump, List.filter]

theorem fromKwargs_dumpNoId (p : Patient) (h : p.validate = true) :
    Patient.fromKwargs p.id p.dumpNoId = some p := by
  rw [dumpNoId_eq]
  simp [Patient.fromKwargs, getStr, getInt, getNum, dictGet, h]

/-! ### Claim C1: what create/update persist under the id -/

def pC1 : Patient := ⟨"P001", "John", "Pune", 25, "Male", 175, 70⟩

unseal Rat.mul Rat.inv Rat.add Rat.sub Rat.ofScientific in
/-- Claim C1 counterexample: after a concrete successful create, the value
persisted under the id holds eight keys — the six stored fields followed by
the derived `bmi` and `verdict` — because pydantic's `model_dump` includes
`@computed_field` properties and only `id` is excluded.  So the derived
fields ARE written to the persisted document, refuting the claim. -/
theorem persisted_fields_counterexample :
    (create_patient [] pC1).2 = [("P001", pC1.dumpNoId)] ∧
    pC1.dumpNoId.map Prod.fst =
      ["name", "city", "age", "gender", "height", "weight", "bmi",
       "verdict"] := by
  decide

/-- Claim C1 (amended): for every successful create or update, the value
stored under the patient id contains the six stored fields plus the derived
`bmi` and `verdict` (computed from the submitted height/weight at write
time); the id itself is not duplicated inside the value. -/
theorem persisted_fields_amended (st : Store) (p : Patient) :
    p.dumpNoId.map Prod.fst =
      ["name", "city", "age", "gender", "height", "weight", "bmi",
       "verdict"] ∧
    dictGet p.dumpNoId "id" = none ∧
    dictGet p.dumpNoId "bmi" = some (.num p.bmi) ∧
    dictGet p.dumpNoId "verdict" = some (.str p.verdict) ∧
    (dictContains st p.id = false →
      dictGet (create_patient st p).2 p.id = some p.dumpNoId) ∧
    (∀ pid, dictContains st pid = true →
      dictGet (update_patient st pid p).2 pid = some p.dumpNoId) := by
  refine ⟨?_, ?_, ?_, ?_, fun hid => ?_, fun pid hpid => ?_⟩
  · rw [dumpNoId_eq]; rfl
  · rw [dumpNoId_eq]; simp [dictGet]
  · rw [dumpNoId_eq]; simp [dictGet]
  · rw [dumpNoId_eq]; simp [dictGet]
  · simp only [create_patient, hid, Bool.false_eq_true, if_false]
    exact dictGet_dictSet_self st p.id p.dumpNoId
  · simp only [update_patient, hpid, if_true]
    exact dictGet_dictSet_self st pid p.dumpNoId

def pC1b : Patient := ⟨"P002", "Jane", "Delhi", 31, "Female", 160, 52⟩

def stC1 : Store := [("X", [])]

theorem persisted_fields_amended_witness :
    dictGet (create_patient stC1 pC1b).2 pC1b.id = some pC1b.dumpNoId ∧
    dictGet (update_patient stC1 "X" pC1b).2 "X" = some pC1b.dumpNoId :=
  ⟨(persisted_fields_amended stC1 pC1b).2.2.2.2.1 (by decide),
   (persisted_fields_amended stC1 pC1b).2.2.2.2.2 "X" (by decide)⟩

/-! ### Claim C4: empty name / city -/

def rawC4 : Obj :=
  [("name", .str ""), ("city", .str ""), ("age", .int 30),
   ("gender", .str "M"), ("height", .num 175), ("weight", .num 70)]

def pC4 : Patient := ⟨"P1", "", "", 30, "M", 175, 70⟩

unseal Rat.mul Rat.inv Rat.add Rat.sub Rat.ofScientific in
/-- Claim C4 counterexample: a concrete payload whose `name` and `city` are
both the empty string is accepted by `Patient` construction (the model
declares no non-empty constraint on either field), and create then succeeds
and modifies the store — refuting the claim that such payloads fail with a
`ValidationError`. -/
theorem empty_name_city_counterexample :
    Patient.fromKwargs "P1" rawC4 = some pC4 ∧
    pC4.validate = true ∧
    (create_patient [] pC4).1 = .ok "P1" ∧
    dictContains (create_patient [] pC4).2 "P1" = true := by
  decide

/-- Claim C4 (amended): a payload whose `name` or `city` is the empty string
is NOT rejected: as long as the declared constraints hold (`age > 0`,
`height > 0`, `weight > 0`) construction succeeds, and create with a fresh
id succeeds and inserts it into the store. -/
theorem empty_name_city_accepted (p : Patient)
    (hfield : p.name = "" ∨ p.city = "") (hage : 0 < p.age)
    (hh : 0 < p.height) (hw : 0 < p.weight) :
    p.validate = true ∧
    Patient.fromKwargs p.id p.dumpNoId = some p ∧
    ∀ st : Store, dictContains st p.id = false →
      (create_patient st p).1 = .ok p.id ∧
      dictContains (create_patient st p).2 p.id = true := by
  have hv : p.validate = true := by simp [Patient.validate, hage, hh, hw]
  refine ⟨hv, fromKwargs_dumpNoId p hv, fun st hid => ⟨?_, ?_⟩⟩
  · simp [create_patient, hid]
  · simp only [create_patient, hid, Bool.false_eq_true, if_false]
    simp [dictContains, dictGet_dictSet_self]

theorem empty_name_city_accepted_witness :
    (pC4.name = "" ∨ pC4.city = "") ∧
    pC4.validate = true ∧
    Patient.fromKwargs pC4.id pC4.dumpNoId = some pC4 ∧
    (create_patient [] pC4).1 = .ok pC4.id ∧
    dictContains (create_patient [] pC4).2 pC4.id = true :=
  ⟨Or.inl rfl,
   (empty_name_city_accepted pC4 (Or.inl rfl) (by decide) (by decide)
     (by decide)).1,
   (empty_name_city_accepted pC4 (Or.inl rfl) (by decide) (by decide)
     (by decide)).2.1,
   ((empty_name_city_accepted pC4 (Or.inl rfl) (by decide) (by decide)
     (by decide)).2.2 [] (by decide)).1,
   ((empty_name_city_accepted pC4 (Or.inl rfl) (by decide) (by decide)
     (by decide)).2.2 [] (by decide)).2⟩

/-! ### Claim C8: create then get round trip -/

/-- Claim C8: for every valid payload whose id is not yet in the store,
create followed by get with that id returns a record with exactly the
submitted fields (`id`, `name`, `city`, `age`, `gender`, `height`,
`weight`) together with the derived `bmi` and `verdict` computed from the
submitted height and weight. -/
theorem create_then_get_roundtrip (st : Store) (p : Patient)
    (hv : p.validate = true) (hid : dictContains st p.id = false) :
    get_patient (create_patient st p).2 p.id = .ok p.model_dump ∧
    dictGet p.model_dump "id" = some (.str p.id) ∧
    dictGet p.model_dump "name" = some (.str p.name) ∧
    dictGet p.model_dump "city" = some (.str p.city) ∧
    dictGet p.model_dump "age" = some (.int p.age) ∧
    dictGet p.model_dump "gender" = some (.str p.gender) ∧
    dictGet p.model_dump "height" = some (.num p.height) ∧
    dictGet p.model_dump "weight" = some (.num p.weight) ∧
    dictGet p.model_dump "bmi" =
      some (.num (round2 (p.weight / ((p.height / 100) ^ 2)))) ∧
    dictGet p.model_dump "verdict" = some (.str p.verdict) := by
  have h2 : (create_patient st p).2 = dictSet st p.id p.dumpNoId := by
    simp [create_patient, hid]
  refine ⟨?_, ?_, ?_, ?_, ?_, ?_, ?_, ?_, ?_, ?_⟩
  · rw [h2, get_patient, dictGet_dictSet_self]
    simp [fromKwargs_dumpNoId p hv]
  all_goals simp [Patient.model_dump, Patient.bmi, dictGet]

def pC8 : Patient := ⟨"P7", "Asha", "Mumbai", 28, "Female", 165, 60⟩

unseal Rat.mul Rat.inv Rat.add Rat.sub Rat.ofScientific in
theorem create_then_get_roundtrip_witness :
    (pC8.validate = true ∧ dictContains ([] : Store) pC8.id = false) ∧
    get_patient (create_patient ([] : Store) pC8).2 pC8.id =
      .ok pC8.model_dump ∧
    dictGet pC8.model_dump "bmi" =
      some (.num (round2 (pC8.weight / ((pC8.height / 100) ^ 2)))) :=
  ⟨⟨by decide, by decide⟩,
   (create_then_get_roundtrip [] pC8 (by decide) (by decide)).1,
   (create_then_get_roundtrip [] pC8 (by decide)
     (by decide)).2.2.2.2.2.2.2.2.1⟩

/-! ### Claim C7: sorting -/

theorem sortLe_trans (sort_by order : String) (a b c : Patient)
    (h1 : sortLe sort_by order a b = true)
    (h2 : sortLe sort_by order b c = true) :
    sortLe sort_by order a c = true := by
  unfold sortLe at *
  by_cases hd : order = "desc" <;> simp [hd] at * <;> linarith

theorem sortLe_total (sort_by order : String) (a b : Patient) :
    (sortLe sort_by order a b || sortLe sort_by order b a) = true := by
  unfold sortLe
  by_cases hd : order = "desc" <;> simp [hd] <;> exact le_total _ _

theorem sortLe_of_key_eq {sort_by order : String} {v : ℚ} {a b : Patient}
    (ha : sortKeyVal sort_by a = v) (hb : sortKeyVal sort_by b = v) :
    sortLe sort_by order a b = true := by
  unfold sortLe
  by_cases hd : order = "desc" <;> simp [hd, ha, hb]

/-- Claim C7: for every store whose entries all reconstruct, every
`sort_by ∈ {height, weight, bmi}` and `order ∈ {asc, desc}`, sort succeeds
and returns the dumps of a list of records that is a permutation of the
records constructed from the store entries (in store order), sorted by the
requested field — non-decreasing for `asc`, non-increasing for `desc` — and
stable: the records tied at any key value keep their original relative
(iteration) order. -/
theorem sort_patients_ordered_stable (st : Store) (sort_by order : String)
    (patients : List Patient)
    (hsb : sort_by = "height" ∨ sort_by = "weight" ∨ sort_by = "bmi")
    (hord : order = "asc" ∨ order = "desc")
    (hp : storePatients st = some patients) :
    ∃ res : List Patient,
      sort_patients st sort_by order = .ok (res.map Patient.model_dump) ∧
      res.Perm patients ∧
      (order = "asc" → res.Pairwise
        (fun a b => sortKeyVal sort_by a ≤ sortKeyVal sort_by b)) ∧
      (order = "desc" → res.Pairwise
        (fun a b => sortKeyVal sort_by b ≤ sortKeyVal sort_by a)) ∧
      ∀ v : ℚ, res.filter (fun q => decide (sortKeyVal sort_by q = v)) =
        patients.filter (fun q => decide (sortKeyVal sort_by q = v)) := by
  refine ⟨patients.mergeSort (sortLe sort_by order), ?_, ?_, ?_, ?_, ?_⟩
  · simp only [sort_patients, hp]
    rw [if_neg (not_not_intro hsb), if_neg (not_not_intro hord)]
  · exact List.mergeSort_perm patients _
  · intro ho
    subst ho
    have hs := @List.sorted_mergeSort Patient (sortLe sort_by "asc")
      (fun a b c => sortLe_trans sort_by "asc" a b c)
      (fun a b => sortLe_total sort_by "asc" a b) patients
    refine hs.imp ?_
    intro a b hab
    unfold sortLe at hab
    simp at hab
    exact hab
  · intro ho
    subst ho
    have hs := @List.sorted_mergeSort Patient (sortLe sort_by "desc")
      (fun a b c => sortLe_trans sort_by "desc" a b c)
      (fun a b => sortLe_total sort_by "desc" a b) patients
    refine hs.imp ?_
    intro a b hab
    unfold sortLe at hab
    simp at hab
    exact hab
  · intro v
    have hall : ∀ a ∈ patients.filter
        (fun q => decide (sortKeyVal sort_by q = v)),
        (fun q => decide (sortKeyVal sort_by q = v)) a = true :=
      fun a ha => (List.mem_filter.mp ha).2
    have hX : (patients.filter
        (fun q => decide (sortKeyVal sort_by q = v))).Sublist
        (patients.mergeSort (sortLe sort_by order)) := by
      apply List.sublist_mergeSort
        (fun a b c => sortLe_trans sort_by order a b c)
        (fun a b => sortLe_total sort_by order a b)
      · apply List.pairwise_of_forall_mem_list
        intro a ha b hb
        exact sortLe_of_key_eq (of_decide_eq_true ((List.mem_filter.mp ha).2))
          (of_decide_eq_true ((List.mem_filter.mp hb).2))
      · exact List.filter_sublist patients
    have h1 := hX.filter (fun q => decide (sortKeyVal sort_by q = v))
    rw [List.filter_eq_self.mpr hall] at h1
    have hperm := (List.mergeSort_perm patients (sortLe sort_by order)).filter
      (fun q => decide (sortKeyVal sort_by q = v))
    exact (h1.eq_of_length hperm.length_eq.symm).symm

def pC7a : Patient := ⟨"A", "a", "c", 30, "M", 100, 18⟩

def pC7b : Patient := ⟨"B", "b", "c", 30, "M", 100, 31⟩

def pC7c : Patient := ⟨"C", "c", "c", 30, "M", 100, 24⟩

/-- A store of three records with bmi values 18.0, 31.0 and 24.0. -/
def stC7 : Store :=
  [("A", pC7a.dumpNoId), ("B", pC7b.dumpNoId), ("C", pC7c.dumpNoId)]

unseal Rat.mul Rat.inv Rat.add Rat.sub Rat.ofScientific in
theorem sort_patients_ordered_stable_witness :
    (∃ res : List Patient,
      sort_patients stC7 "bmi" "desc" = .ok (res.map Patient.model_dump) ∧
      res.Perm [pC7a, pC7b, pC7c] ∧
      ("desc" = "asc" → res.Pairwise
        (fun a b => sortKeyVal "bmi" a ≤ sortKeyVal "bmi" b)) ∧
      ("desc" = "desc" → res.Pairwise
        (fun a b => sortKeyVal "bmi" b ≤ sortKeyVal "bmi" a)) ∧
      ∀ v : ℚ, res.filter (fun q => decide (sortKeyVal "bmi" q = v)) =
        [pC7a, pC7b, pC7c].filter (fun q => decide (sortKeyVal "bmi" q = v))) ∧
    sort_patients stC7 "bmi" "desc" =
      .ok [pC7b.model_dump, pC7c.model_dump, pC7a.model_dump] := by
  constructor
  · exact sort_patients_ordered_stable stC7 "bmi" "desc" [pC7a, pC7b, pC7c]
      (Or.inr (Or.inr rfl)) (Or.inr rfl) (by decide)
  · have h : storePatients stC7 = some [pC7a, pC7b, pC7c] := by decide
    have hab : sortLe "bmi" "desc" pC7a pC7b = false := by decide
    have hba : sortLe "bmi" "desc" pC7b pC7a = true := by decide
    have hbc : sortLe "bmi" "desc" pC7b pC7c = true := by decide
    have hca : sortLe "bmi" "desc" pC7c pC7a = true := by decide
    have hac : sortLe "bmi" "desc" pC7a pC7c = false := by decide
    have hcb : sortLe "bmi" "desc" pC7c pC7b = false := by decide
    simp only [sort_patients, h]
    simp [List.mergeSort, List.merge, hab, hba, hbc, hca, hac, hcb]

end PMS
